import Mathlib

/-!
Verification of the object-construction contracts of `kubespawner/objects.py`.

The file shallowly embeds the three builder functions of the source —
`make_pod`, `make_pvc` and `make_ingress` — together with the fragments of
the Python standard library they rely on (`str.split`, `dict.update`,
`urllib.parse.urlparse` host/port extraction, and `json.dumps` /
`json.loads`).  Python strings are modelled as `List Char` (wrapped in
`String` at the API boundary), Python dicts as insertion-ordered
association lists, optional/None-able values as `Option`, and code that
can raise as `Except String`.
-/

namespace Kubespawner

/-! ### Python primitives -/

/-- `s.startswith('/')` specialised to the one use in the source. -/
def startsSlash : List Char → Bool
  | '/' :: _ => true
  | _ => false

/-- `s.split(sep, 1)`: `none` when `sep` does not occur, otherwise the part
before the first occurrence and the part after it (separator consumed). -/
def splitFirst (sep : Char) : List Char → Option (List Char × List Char)
  | [] => none
  | c :: cs =>
    if c = sep then some ([], cs)
    else (splitFirst sep cs).map (fun p => (c :: p.1, p.2))

/-- Insert-or-replace of one key in an insertion-ordered dict: an existing
key keeps its position, a new key is appended (CPython dict semantics). -/
def dictSet : List (String × String) → String → String → List (String × String)
  | [], k, v => [(k, v)]
  | (k0, v0) :: rest, k, v =>
    if k0 = k then (k, v) :: rest else (k0, v0) :: dictSet rest k v

/-- `d.update(u)` on insertion-ordered dicts. -/
def dictUpdate (d u : List (String × String)) : List (String × String) :=
  u.foldl (fun acc kv => dictSet acc kv.1 kv.2) d

/-- A Kubernetes resource quantity as the source passes it through: the cpu
fields carry Python numbers (modelled as rationals; the code only zero-tests
and stores them) and the mem fields carry unit-suffixed strings. -/
inductive Quantity where
  | num (q : ℚ)
  | str (s : String)
deriving DecidableEq

/-- Python truthiness of a quantity: `0` and `""` are falsy. -/
def Quantity.truthy : Quantity → Bool
  | .num q => q != 0
  | .str s => s != ""

/-- Python truthiness of an optional quantity: `None` is falsy. -/
def truthyQ : Option Quantity → Bool
  | none => false
  | some q => q.truthy

/-! ### Data model (the fields of the kubernetes client objects the source
touches; every field an unset attribute of the client object maps to
`none`) -/

structure V1ObjectMeta where
  name : Option String := none
  labels : Option (List (String × String)) := none
  annotations : Option (List (String × String)) := none
deriving DecidableEq

structure V1PodSecurityContext where
  fs_group : Option Int := none
  run_as_user : Option Int := none
deriving DecidableEq

structure V1LocalObjectReference where
  name : Option String := none
deriving DecidableEq

structure V1ContainerPort where
  name : Option String := none
  container_port : Option Int := none
deriving DecidableEq

structure V1EnvVar where
  name : String
  value : String
deriving DecidableEq

structure V1ResourceRequirements where
  requests : Option (List (String × Quantity)) := none
  limits : Option (List (String × Quantity)) := none
deriving DecidableEq

/-- The notebook container; `α` is the type of the opaque pass-through
payloads (volume mounts, lifecycle hooks, …) the source never inspects. -/
structure V1Container (α : Type) where
  name : Option String := none
  image : Option String := none
  working_dir : Option String := none
  ports : Option (List V1ContainerPort) := none
  env : Option (List V1EnvVar) := none
  args : Option (List String) := none
  image_pull_policy : Option String := none
  lifecycle : Option α := none
  resources : Option V1ResourceRequirements := none
  volume_mounts : Option (List α) := none
deriving DecidableEq

structure V1PodSpec (α : Type) where
  security_context : Option V1PodSecurityContext := none
  image_pull_secrets : Option (List V1LocalObjectReference) := none
  node_selector : Option (List (String × String)) := none
  containers : Option (List (V1Container α)) := none
  init_containers : Option (List α) := none
  volumes : Option (List α) := none
deriving DecidableEq

structure V1Pod (α : Type) where
  kind : Option String := none
  api_version : Option String := none
  metadata : Option V1ObjectMeta := none
  spec : Option (V1PodSpec α) := none
deriving DecidableEq

/-! ### `make_pod` (objects.py lines 21–167) -/

/-- Embedding of `make_pod`.  `run_as_uid` and `fs_gid` are numeric per the
documented precondition, so the `int(...)` coercions are the identity;
`cmd` becomes the container args; `lifecycle_hooks` and the volume lists
are opaque pass-throughs. -/
def make_pod {α : Type}
    (name : String)
    (image_spec : String)
    (image_pull_policy : String)
    (image_pull_secret : Option String)
    (port : Int)
    (cmd : List String)
    (node_selector : List (String × String))
    (run_as_uid : Option Int)
    (fs_gid : Option Int)
    (env : List (String × String))
    (working_dir : String)
    (volumes : List α)
    (volume_mounts : List α)
    (labels : List (String × String))
    (cpu_limit : Option Quantity)
    (cpu_guarantee : Option Quantity)
    (mem_limit : Option Quantity)
    (mem_guarantee : Option Quantity)
    (lifecycle_hooks : Option α)
    (init_containers : List α) : V1Pod α :=
  let metadata : V1ObjectMeta :=
    { name := some name
      -- labels.copy(): copying an immutable value is the identity
      labels := some labels }
  let sc0 : V1PodSecurityContext := {}
  let sc1 := match fs_gid with
    | some g => { sc0 with fs_group := some g }
    | none => sc0
  let security_context := match run_as_uid with
    | some u => { sc1 with run_as_user := some u }
    | none => sc1
  let image_pull_secrets : Option (List V1LocalObjectReference) :=
    match image_pull_secret with
    | some s => some [{ name := some s }]
    | none => none
  let port_ : V1ContainerPort :=
    { name := some "notebook-port", container_port := some port }
  let requests : List (String × Quantity) :=
    (if truthyQ cpu_guarantee then [("cpu", cpu_guarantee.getD (.str ""))] else []) ++
    (if truthyQ mem_guarantee then [("memory", mem_guarantee.getD (.str ""))] else [])
  let limits : List (String × Quantity) :=
    (if truthyQ cpu_limit then [("cpu", cpu_limit.getD (.str ""))] else []) ++
    (if truthyQ mem_limit then [("memory", mem_limit.getD (.str ""))] else [])
  let notebook_container : V1Container α :=
    { name := some "notebook"
      image := some image_spec
      working_dir := some working_dir
      ports := some [port_]
      env := some (env.map (fun kv => V1EnvVar.mk kv.1 kv.2))
      args := some cmd
      image_pull_policy := some image_pull_policy
      lifecycle := lifecycle_hooks
      resources := some { requests := some requests, limits := some limits }
      volume_mounts := some volume_mounts }
  { kind := some "Pod"
    api_version := some "v1"
    metadata := some metadata
    spec := some
      { security_context := some security_context
        image_pull_secrets := image_pull_secrets
        node_selector := if node_selector ≠ [] then some node_selector else none
        containers := some [notebook_container]
        init_containers := some init_containers
        volumes := some volumes } }

/-! ### `make_pvc` (objects.py lines 170–206) -/

structure PvcResources where
  requests : Option (List (String × String)) := none
deriving DecidableEq

structure V1PersistentVolumeClaimSpec where
  access_modes : Option (List String) := none
  resources : Option PvcResources := none
deriving DecidableEq

structure V1PersistentVolumeClaim where
  kind : Option String := none
  api_version : Option String := none
  metadata : Option V1ObjectMeta := none
  spec : Option V1PersistentVolumeClaimSpec := none
deriving DecidableEq

/-- Embedding of `make_pvc`. -/
def make_pvc
    (name : String)
    (storage_class : Option String)
    (access_modes : List String)
    (storage : String)
    (labels : List (String × String)) : V1PersistentVolumeClaim :=
  let annotations0 : List (String × String) := []
  let annotations :=
    -- `if storage_class:` — Python truthiness, so None and "" both skip
    if storage_class.getD "" ≠ "" then
      dictUpdate annotations0
        [("volume.beta.kubernetes.io/storage-class", storage_class.getD "")]
    else annotations0
  { kind := some "PersistentVolumeClaim"
    api_version := some "v1"
    metadata := some
      { name := some name
        annotations := some annotations
        labels := some (dictUpdate [] labels) }
    spec := some
      { access_modes := some access_modes
        resources := some { requests := some [("storage", storage)] } } }

/-! ### Projections used by the statements -/

def podContainer {α : Type} (p : V1Pod α) : Option (V1Container α) :=
  p.spec.bind fun s => s.containers.bind List.head?

def requestsOf {α : Type} (p : V1Pod α) : Option (List (String × Quantity)) :=
  (podContainer p).bind fun c => c.resources.bind fun r => r.requests

def limitsOf {α : Type} (p : V1Pod α) : Option (List (String × Quantity)) :=
  (podContainer p).bind fun c => c.resources.bind fun r => r.limits

def securityContextOf {α : Type} (p : V1Pod α) : Option V1PodSecurityContext :=
  p.spec.bind fun s => s.security_context

def pullSecretsOf {α : Type} (p : V1Pod α) : Option (List V1LocalObjectReference) :=
  p.spec.bind fun s => s.image_pull_secrets

def pvcAnnotations (pvc : V1PersistentVolumeClaim) : Option (List (String × String)) :=
  pvc.metadata.bind fun m => m.annotations

/-! ### JSON payloads and `json.dumps`

A JSON-serializable payload: Python `None`/`bool`/`int`/`str`/`list`/`dict`
values (floats are out of scope; the source stores the payload opaquely).
Strings are sequences of unicode scalar values, dicts are insertion-ordered
association lists. -/

mutual
inductive Json where
  | null
  | bool (b : Bool)
  | num (n : Int)
  | str (s : List Char)
  | arr (xs : JsonList)
  | obj (kvs : JsonObj)
deriving DecidableEq
inductive JsonList where
  | nil
  | cons (hd : Json) (tl : JsonList)
deriving DecidableEq
inductive JsonObj where
  | nil
  | cons (key : List Char) (val : Json) (tl : JsonObj)
deriving DecidableEq
end

/-- Lowercase hex digit, as `'%04x'` formatting uses. -/
def hexDig (n : Nat) : Char := Char.ofNat (if n < 10 then 48 + n else 87 + n)

/-- Four-digit lowercase hex rendering of `n < 0x10000` (`'\\u%04x'`). -/
def hex4 (n : Nat) : List Char :=
  [hexDig (n / 4096 % 16), hexDig (n / 256 % 16), hexDig (n / 16 % 16), hexDig (n % 16)]

/-- Base-10 digits of `n`, least significant first, computed with explicit
fuel so that it evaluates by kernel reduction (`natDigits f n = Nat.digits
10 n` whenever `n ≤ f`, proved below). -/
def natDigits : Nat → Nat → List Nat
  | 0, _ => []
  | _ + 1, 0 => []
  | f + 1, n + 1 => ((n + 1) % 10) :: natDigits f ((n + 1) / 10)

/-- Decimal rendering of a natural number, most significant digit first. -/
def encNat (n : Nat) : List Char :=
  if n = 0 then ['0'] else ((natDigits n n).map (fun d => hexDig d)).reverse

/-- Python `repr` of an int, as the JSON encoder emits it. -/
def encInt : Int → List Char
  | .ofNat n => encNat n
  | .negSucc m => '-' :: encNat (m + 1)

/-- One character of `json.encoder.py_encode_basestring_ascii`: printable
ASCII other than quote and backslash is literal, the shorthand escapes are
used where they exist, everything else becomes `\\uXXXX` (a surrogate pair
for astral characters). -/
def escChar (c : Char) : List Char :=
  if c = '\\' then ['\\', '\\']
  else if c = '"' then ['\\', '"']
  else if 0x20 ≤ c.toNat ∧ c.toNat ≤ 0x7e then [c]
  else if c.toNat = 8 then ['\\', 'b']
  else if c.toNat = 12 then ['\\', 'f']
  else if c.toNat = 10 then ['\\', 'n']
  else if c.toNat = 13 then ['\\', 'r']
  else if c.toNat = 9 then ['\\', 't']
  else if c.toNat < 0x10000 then '\\' :: 'u' :: hex4 c.toNat
  else
    ('\\' :: 'u' :: hex4 (0xd800 + (c.toNat - 0x10000) / 0x400)) ++
    ('\\' :: 'u' :: hex4 (0xdc00 + (c.toNat - 0x10000) % 0x400))

def escBody : List Char → List Char
  | [] => []
  | c :: cs => escChar c ++ escBody cs

/-- A JSON string literal as the encoder emits it. -/
def encString (s : List Char) : List Char := '"' :: escBody s ++ ['"']

mutual
/-- `json.dumps` with the default separators `', '` and `': '`. -/
def dumps : Json → List Char
  | .null => "null".toList
  | .bool true => "true".toList
  | .bool false => "false".toList
  | .num n => encInt n
  | .str s => encString s
  | .arr .nil => ['[', ']']
  | .arr (.cons v tl) => '[' :: (dumps v ++ dumpsItems tl ++ [']'])
  | .obj .nil => ['{', '}']
  | .obj (.cons k v tl) =>
      '{' :: (encString k ++ ':' :: ' ' :: dumps v ++ dumpsMembers tl ++ ['}'])
def dumpsItems : JsonList → List Char
  | .nil => []
  | .cons v tl => ',' :: ' ' :: (dumps v ++ dumpsItems tl)
def dumpsMembers : JsonObj → List Char
  | .nil => []
  | .cons k v tl => ',' :: ' ' :: (encString k ++ ':' :: ' ' :: dumps v ++ dumpsMembers tl)
end

/-- `json.dumps` at the `String` boundary. -/
def dumpsStr (v : Json) : String := String.mk (dumps v)

/-! ### The `urllib.parse` fragment `make_ingress` relies on: `urlparse`
followed by the `hostname` and `port` properties. -/

def schemeChars : List Char :=
  "abcdefghijklmnopqrstuvwxyzABCDEFGHIJKLMNOPQRSTUVWXYZ0123456789+-.".toList

/-- The scheme-stripping step of `urlsplit`: when the part before the first
`':'` is nonempty and made of scheme characters, drop it (the scheme itself
is unused downstream). -/
def splitScheme (url : List Char) : List Char :=
  match splitFirst ':' url with
  | some p => if p.1 ≠ [] ∧ p.1.all (fun c => schemeChars.contains c) then p.2 else url
  | none => url

/-- The netloc of `urlsplit`: present only after a leading `'//'`, running
up to the next `'/'`, `'?'` or `'#'`; mismatched square brackets raise
`ValueError('Invalid IPv6 URL')`. -/
def urlsplitNetloc (url : List Char) : Except String (List Char) :=
  match splitScheme url with
  | '/' :: '/' :: r =>
    let netloc := r.takeWhile (fun c => (c != '/') && (c != '?') && (c != '#'))
    if ('[' ∈ netloc ∧ ']' ∉ netloc) ∨ (']' ∈ netloc ∧ '[' ∉ netloc)
    then .error "Invalid IPv6 URL"
    else .ok netloc
  | _ => .ok []

/-- `s.rpartition(sep)[2]` when `sep` occurs, the whole string otherwise. -/
def afterLast (sep : Char) (s : List Char) : List Char :=
  (s.reverse.takeWhile (fun c => c != sep)).reverse

/-- `_hostinfo`: strip userinfo after the last `'@'`, handle a bracketed
IPv6 host, split off the port text, and turn an empty port into `None`. -/
def hostinfoOf (netloc : List Char) : List Char × Option (List Char) :=
  let hi := afterLast '@' netloc
  match splitFirst '[' hi with
  | some br =>
    let hp : List Char × List Char :=
      match splitFirst ']' br.2 with
      | some hb =>
        (hb.1, match splitFirst ':' hb.2 with
               | some pp => pp.2
               | none => [])
      | none => (br.2, [])
    (hp.1, if hp.2 = [] then none else some hp.2)
  | none =>
    match splitFirst ':' hi with
    | some hp => (hp.1, if hp.2 = [] then none else some hp.2)
    | none => (hi, none)

/-- Decimal value of a digit run. -/
def natOfDigits (ds : List Char) : Nat :=
  ds.foldl (fun a c => a * 10 + (c.toNat - 48)) 0

/-- `int(s, 10)`: surrounding whitespace stripped, optional sign, then a
nonempty digit run (`None` models the `ValueError`; digit-grouping
underscores are not modelled). -/
def pyIntBase10 (s : List Char) : Option Int :=
  let t := ((s.dropWhile Char.isWhitespace).reverse.dropWhile Char.isWhitespace).reverse
  let sd : Bool × List Char :=
    match t with
    | '-' :: r => (true, r)
    | '+' :: r => (false, r)
    | r => (false, r)
  if sd.2 = [] ∨ ¬ sd.2.all Char.isDigit then none
  else
    some (if sd.1 then -(Int.ofNat (natOfDigits sd.2)) else Int.ofNat (natOfDigits sd.2))

/-- The `port` property: `int(port, 10)` re-raised as the cast `ValueError`,
then the 0–65535 range check. -/
def urlPortVal (ps : List Char) : Except String Nat :=
  match pyIntBase10 ps with
  | none => .error ("Port could not be cast to integer value as '" ++ String.mk ps ++ "'")
  | some n => if 0 ≤ n ∧ n ≤ 65535 then .ok n.toNat else .error "Port out of range 0-65535"

/-- `urlparse(target)` followed by reading `.hostname` and `.port`:
`hostname` is the lowercased host (or `None` when empty), `port` is the
parsed port (or `None` when absent). -/
def urlparseHostPort (target : String) : Except String (Option String × Option Nat) := do
  let netloc ← urlsplitNetloc target.toList
  let hp := hostinfoOf netloc
  let hostname : Option String :=
    if hp.1 = [] then none else some (String.mk (hp.1.map Char.toLower))
  match hp.2 with
  | none => pure (hostname, none)
  | some ps => do
      let n ← urlPortVal ps
      pure (hostname, some n)

/-! ### Route structures (Endpoints, Service, Ingress) -/

structure V1EndpointAddress where
  ip : Option String := none
deriving DecidableEq

structure V1EndpointPort where
  port : Option Nat := none
deriving DecidableEq

structure V1EndpointSubset where
  addresses : Option (List V1EndpointAddress) := none
  ports : Option (List V1EndpointPort) := none
deriving DecidableEq

structure V1Endpoints where
  kind : Option String := none
  metadata : Option V1ObjectMeta := none
  subsets : Option (List V1EndpointSubset) := none
deriving DecidableEq

structure V1ServicePort where
  port : Option Nat := none
  target_port : Option Nat := none
deriving DecidableEq

structure V1ServiceSpec where
  ports : Option (List V1ServicePort) := none
deriving DecidableEq

structure V1Service where
  kind : Option String := none
  metadata : Option V1ObjectMeta := none
  spec : Option V1ServiceSpec := none
deriving DecidableEq

structure V1beta1IngressBackend where
  service_name : Option String := none
  service_port : Option Nat := none
deriving DecidableEq

structure V1beta1HTTPIngressPath where
  path : Option String := none
  backend : Option V1beta1IngressBackend := none
deriving DecidableEq

structure V1beta1HTTPIngressRuleValue where
  paths : Option (List V1beta1HTTPIngressPath) := none
deriving DecidableEq

structure V1beta1IngressRule where
  host : Option String := none
  http : Option V1beta1HTTPIngressRuleValue := none
deriving DecidableEq

structure V1beta1IngressSpec where
  rules : Option (List V1beta1IngressRule) := none
deriving DecidableEq

structure V1beta1Ingress where
  kind : Option String := none
  metadata : Option V1ObjectMeta := none
  spec : Option V1beta1IngressSpec := none
deriving DecidableEq

/-! ### `make_ingress` (objects.py lines 209–286) -/

/-- The routespec split (objects.py lines 232–236): a leading `'/'` keeps
the whole string as the path with no host; otherwise `split('/', 1)` is
unpacked into `(host, path)`, which raises `ValueError` when no `'/'`
occurs. -/
def parseRoutespec (routespec : String) : Except String (Option String × String) :=
  if startsSlash routespec.toList then .ok (none, routespec)
  else
    match splitFirst '/' routespec.toList with
    | some hp => .ok (some (String.mk hp.1), String.mk hp.2)
    | none => .error "ValueError: not enough values to unpack (expected 2, got 1)"

/-- Embedding of `make_ingress`: metadata shared by all three objects, the
routespec split, the target URL's hostname/port, then the endpoint, service
and ingress objects. -/
def make_ingress (name routespec target : String) (data : Json) :
    Except String (V1Endpoints × V1Service × V1beta1Ingress) := do
  let meta : V1ObjectMeta :=
    { name := some name
      annotations := some [
        ("hub.jupyter.org/proxy-data", dumpsStr data),
        ("hub.jupyter.org/proxy-routespec", routespec),
        ("hub.jupyter.org/proxy-target", target)]
      labels := some [
        ("heritage", "jupyterhub"),
        ("component", "singleuser-server"),
        ("hub.jupyter.org/proxy-route", "true")] }
  let hp ← parseRoutespec routespec
  let ipport ← urlparseHostPort target
  let endpoint : V1Endpoints :=
    { kind := some "Endpoints"
      metadata := some meta
      subsets := some [
        { addresses := some [{ ip := ipport.1 }]
          ports := some [{ port := ipport.2 }] }] }
  let service : V1Service :=
    { kind := some "Service"
      metadata := some meta
      spec := some { ports := some [{ port := ipport.2, target_port := ipport.2 }] } }
  let backend : V1beta1IngressBackend :=
    { service_name := some name, service_port := ipport.2 }
  let ingressPath : V1beta1HTTPIngressPath :=
    { path := some hp.2, backend := some backend }
  let rule : V1beta1IngressRule :=
    { host := hp.1, http := some { paths := some [ingressPath] } }
  let ingress : V1beta1Ingress :=
    { kind := some "Ingress"
      metadata := some meta
      spec := some { rules := some [rule] } }
  pure (endpoint, service, ingress)

/-! ### Projections on the route objects -/

def exceptIsOk {α : Type} : Except String α → Bool
  | .ok _ => true
  | .error _ => false

def ingressRule (i : V1beta1Ingress) : Option V1beta1IngressRule :=
  i.spec.bind fun s => s.rules.bind List.head?

def ingressHostOf (i : V1beta1Ingress) : Option (Option String) :=
  (ingressRule i).map (fun r => r.host)

def ingressFirstPath (i : V1beta1Ingress) : Option V1beta1HTTPIngressPath :=
  (ingressRule i).bind fun r => r.http.bind fun h => h.paths.bind List.head?

def ingressPathOf (i : V1beta1Ingress) : Option (Option String) :=
  (ingressFirstPath i).map (fun p => p.path)

def ingressBackendPortOf (i : V1beta1Ingress) : Option (Option Nat) :=
  ((ingressFirstPath i).bind fun p => p.backend).map (fun b => b.service_port)

def ingressBackendNameOf (i : V1beta1Ingress) : Option (Option String) :=
  ((ingressFirstPath i).bind fun p => p.backend).map (fun b => b.service_name)

def endpointSubset (e : V1Endpoints) : Option V1EndpointSubset :=
  e.subsets.bind List.head?

def endpointIpOf (e : V1Endpoints) : Option (Option String) :=
  ((endpointSubset e).bind fun s => s.addresses.bind List.head?).map (fun a => a.ip)

def endpointPortOf (e : V1Endpoints) : Option (Option Nat) :=
  ((endpointSubset e).bind fun s => s.ports.bind List.head?).map (fun p => p.port)

def serviceFirstPort (s : V1Service) : Option V1ServicePort :=
  s.spec.bind fun sp => sp.ports.bind List.head?

def servicePortOf (s : V1Service) : Option (Option Nat) :=
  (serviceFirstPort s).map (fun p => p.port)

def serviceTargetPortOf (s : V1Service) : Option (Option Nat) :=
  (serviceFirstPort s).map (fun p => p.target_port)

instance {α : Type} [DecidableEq α] : DecidableEq (Except String α) := fun a b =>
  match a, b with
  | .ok x, .ok y =>
    if h : x = y then .isTrue (by rw [h]) else .isFalse (by simp [h])
  | .error x, .error y =>
    if h : x = y then .isTrue (by rw [h]) else .isFalse (by simp [h])
  | .ok _, .error _ => .isFalse (by simp)
  | .error _, .ok _ => .isFalse (by simp)

/-! ### `json.loads`

The decoder fragment matching the encoder above: JSON whitespace skipping,
the three keyword literals, string literals with shorthand and `\\uXXXX`
escapes (surrogate pairs recombined; a lone surrogate is rejected, since
Lean strings only hold unicode scalar values), integer numbers, arrays and
objects.  Recursion is fuelled so that every definition evaluates by kernel
reduction; `loads` passes enough fuel for any input. -/

def isWs (c : Char) : Bool := c = ' ' || c = '\t' || c = '\n' || c = '\r'

def skipWs : List Char → List Char
  | [] => []
  | c :: cs => if isWs c then skipWs cs else c :: cs

/-- Value of one hex digit. -/
def hexVal (c : Char) : Option Nat :=
  if 48 ≤ c.toNat ∧ c.toNat ≤ 57 then some (c.toNat - 48)
  else if 97 ≤ c.toNat ∧ c.toNat ≤ 102 then some (c.toNat - 87)
  else if 65 ≤ c.toNat ∧ c.toNat ≤ 70 then some (c.toNat - 55)
  else none

/-- The shorthand string escapes of the decoder. -/
def escMap (e : Char) : Option Char :=
  if e = '"' then some '"'
  else if e = '\\' then some '\\'
  else if e = '/' then some '/'
  else if e = 'b' then some (Char.ofNat 8)
  else if e = 'f' then some (Char.ofNat 12)
  else if e = 'n' then some '\n'
  else if e = 'r' then some (Char.ofNat 13)
  else if e = 't' then some '\t'
  else none

/-- Read four hex digits. -/
def readHex4 : List Char → Option (Nat × List Char)
  | a :: b :: c :: d :: r =>
    match hexVal a, hexVal b, hexVal c, hexVal d with
    | some x1, some x2, some x3, some x4 => some (((x1 * 16 + x2) * 16 + x3) * 16 + x4, r)
    | _, _, _, _ => none
  | _ => none

/-- Decode one `\\uXXXX` escape (after the `\\u`), recombining a surrogate
pair into one scalar value and rejecting a lone surrogate; `k` continues
parsing the rest of the string literal. -/
def decodeU (k : List Char → Option (List Char × List Char)) (r2 : List Char) :
    Option (List Char × List Char) :=
  match readHex4 r2 with
  | none => none
  | some (n, r3) =>
    if 0xd800 ≤ n ∧ n ≤ 0xdbff then
      match r3 with
      | e2 :: u2 :: r3x =>
        if e2 = '\\' ∧ u2 = 'u' then
          match readHex4 r3x with
          | none => none
          | some (m, r4) =>
            if 0xdc00 ≤ m ∧ m ≤ 0xdfff then
              (k r4).map (fun pr =>
                (Char.ofNat (0x10000 + (n - 0xd800) * 0x400 + (m - 0xdc00)) :: pr.1, pr.2))
            else none
        else none
      | _ => none
    else if 0xdc00 ≤ n ∧ n ≤ 0xdfff then none
    else (k r3).map (fun pr => (Char.ofNat n :: pr.1, pr.2))

/-- String-literal body parser (`py_scanstring` after the opening quote):
returns the decoded characters and the input after the closing quote. -/
def parseStr : Nat → List Char → Option (List Char × List Char)
  | 0, _ => none
  | f + 1, cs =>
    match cs with
    | [] => none
    | c :: rest =>
      if c = '"' then some ([], rest)
      else if c = '\\' then
        match rest with
        | [] => none
        | e :: r2 =>
          if e = 'u' then decodeU (parseStr f) r2
          else
            match escMap e with
            | some ch => (parseStr f r2).map (fun pr => (ch :: pr.1, pr.2))
            | none => none
      else if 0x20 ≤ c.toNat then
        (parseStr f rest).map (fun pr => (c :: pr.1, pr.2))
      else none

/-- Decimal-digit test. -/
def isDig (c : Char) : Bool := 48 ≤ c.toNat && c.toNat ≤ 57

/-- Longest digit run at the head of the input. -/
def spanDigits : List Char → List Char × List Char
  | [] => ([], [])
  | c :: cs =>
    if isDig c then
      let p := spanDigits cs
      (c :: p.1, p.2)
    else ([], c :: cs)

/-- Integer-number parser (the fragment of the scanner's number regex the
encoder above can produce). -/
def parseNum (cs : List Char) : Option (Json × List Char) :=
  match cs with
  | [] => none
  | c :: rest =>
    if c = '-' then
      let sp := spanDigits rest
      if sp.1 = [] then none
      else some (.num (-(Int.ofNat (natOfDigits sp.1))), sp.2)
    else
      let sp := spanDigits (c :: rest)
      if sp.1 = [] then none
      else some (.num (Int.ofNat (natOfDigits sp.1)), sp.2)

mutual
/-- Value parser: whitespace, then a keyword, string, array, object or
number; returns the value and the remaining input. -/
def parseVal : Nat → List Char → Option (Json × List Char)
  | 0, _ => none
  | f + 1, cs =>
    match skipWs cs with
    | [] => none
    | c :: rest =>
      if c = 'n' then
        match rest with
        | 'u' :: 'l' :: 'l' :: r => some (.null, r)
        | _ => none
      else if c = 't' then
        match rest with
        | 'r' :: 'u' :: 'e' :: r => some (.bool true, r)
        | _ => none
      else if c = 'f' then
        match rest with
        | 'a' :: 'l' :: 's' :: 'e' :: r => some (.bool false, r)
        | _ => none
      else if c = '"' then
        match parseStr (rest.length + 1) rest with
        | none => none
        | some (s, r) => some (.str s, r)
      else if c = '[' then
        match skipWs rest with
        | [] => none
        | d :: r2 =>
          if d = ']' then some (.arr .nil, r2)
          else
            match parseItems f (d :: r2) with
            | none => none
            | some (xs, r3) => some (.arr xs, r3)
      else if c = '{' then
        match skipWs rest with
        | [] => none
        | d :: r2 =>
          if d = '}' then some (.obj .nil, r2)
          else
            match parseMembers f (d :: r2) with
            | none => none
            | some (kvs, r3) => some (.obj kvs, r3)
      else parseNum (c :: rest)
/-- One or more array elements followed by `']'`. -/
def parseItems : Nat → List Char → Option (JsonList × List Char)
  | 0, _ => none
  | f + 1, cs =>
    match parseVal f cs with
    | none => none
    | some (v, r) =>
      match skipWs r with
      | [] => none
      | d :: r2 =>
        if d = ']' then some (.cons v .nil, r2)
        else if d = ',' then
          match parseItems f r2 with
          | none => none
          | some (tl, r3) => some (.cons v tl, r3)
        else none
/-- One or more object members followed by `'}'`. -/
def parseMembers : Nat → List Char → Option (JsonObj × List Char)
  | 0, _ => none
  | f + 1, cs =>
    match skipWs cs with
    | [] => none
    | c :: rest =>
      if c = '"' then
        match parseStr (rest.length + 1) rest with
        | none => none
        | some (k, r) =>
          match skipWs r with
          | [] => none
          | d :: r2 =>
            if d = ':' then
              match parseVal f r2 with
              | none => none
              | some (v, r3) =>
                match skipWs r3 with
                | [] => none
                | e2 :: r4 =>
                  if e2 = '}' then some (.cons k v .nil, r4)
                  else if e2 = ',' then
                    match parseMembers f r4 with
                    | none => none
                    | some (tl, r5) => some (.cons k v tl, r5)
                  else none
            else none
      else none
end

/-- `json.loads`: parse one value, then require only whitespace to follow. -/
def loads (s : String) : Except String Json :=
  match parseVal (s.toList.length + 1) s.toList with
  | some (v, r) => if skipWs r = [] then .ok v else .error "Extra data"
  | none => .error "Expecting value"

/-! ### Round trip, part 2: numbers -/

/-- The character after a rendered number must not be a digit, so that the
greedy digit run stops exactly there. -/
def headNotDigit : List Char → Prop
  | [] => True
  | c :: _ => isDig c = false

mutual
/-- Parser fuel needed for a value (one unit per `parseVal`/`parseItems`/
`parseMembers` nesting level). -/
def jsize : Json → Nat
  | .null => 1
  | .bool _ => 1
  | .num _ => 1
  | .str _ => 1
  | .arr xs => 1 + lsize xs
  | .obj kvs => 1 + msize kvs
def lsize : JsonList → Nat
  | .nil => 0
  | .cons v tl => 1 + jsize v + lsize tl
def msize : JsonObj → Nat
  | .nil => 0
  | .cons _ v tl => 1 + jsize v + msize tl
end

/-! ### Claims about `make_pod` and `make_pvc` -/

theorem truthyQ_getD {a : Option Quantity} (h : truthyQ a = true) (x : Quantity) :
    some (a.getD x) = a := by
  cases a with
  | none => simp [truthyQ] at h
  | some q => rfl

theorem condPairs_lookup (ka kb : String) (hne : ka ≠ kb) (a b : Option Quantity) :
    ((if truthyQ a then [(ka, a.getD (.str ""))] else []) ++
     (if truthyQ b then [(kb, b.getD (.str ""))] else [])).lookup ka =
      (if truthyQ a then a else none) ∧
    ((if truthyQ a then [(ka, a.getD (.str ""))] else []) ++
     (if truthyQ b then [(kb, b.getD (.str ""))] else [])).lookup kb =
      (if truthyQ b then b else none) := by
  have h1 : (ka == kb) = false := beq_eq_false_iff_ne.mpr hne
  have h2 : (kb == ka) = false := beq_eq_false_iff_ne.mpr (Ne.symm hne)
  cases ha : truthyQ a <;> cases hb : truthyQ b <;>
    simp [List.lookup, h1, h2, truthyQ_getD, ha, hb]

/-- C4: in the pod built by `make_pod`, the container resources block maps
`cpu` in requests iff `cpu_guarantee` is truthy (to its value), `memory` in
requests iff `mem_guarantee` is truthy, and likewise for `cpu_limit` and
`mem_limit` in limits; absent or falsy inputs produce no entry at all. -/
theorem make_pod_resources_conditional {α : Type} (name image_spec image_pull_policy : String)
    (image_pull_secret : Option String) (port : Int) (cmd : List String)
    (node_selector : List (String × String)) (run_as_uid fs_gid : Option Int)
    (env : List (String × String)) (working_dir : String)
    (volumes volume_mounts : List α) (labels : List (String × String))
    (cpu_limit cpu_guarantee mem_limit mem_guarantee : Option Quantity)
    (lifecycle_hooks : Option α) (init_containers : List α) :
    let pod := make_pod name image_spec image_pull_policy image_pull_secret port cmd
      node_selector run_as_uid fs_gid env working_dir volumes volume_mounts labels
      cpu_limit cpu_guarantee mem_limit mem_guarantee lifecycle_hooks init_containers
    (requestsOf pod).isSome = true ∧ (limitsOf pod).isSome = true ∧
    (requestsOf pod).bind (List.lookup "cpu") =
      (if truthyQ cpu_guarantee then cpu_guarantee else none) ∧
    (requestsOf pod).bind (List.lookup "memory") =
      (if truthyQ mem_guarantee then mem_guarantee else none) ∧
    (limitsOf pod).bind (List.lookup "cpu") =
      (if truthyQ cpu_limit then cpu_limit else none) ∧
    (limitsOf pod).bind (List.lookup "memory") =
      (if truthyQ mem_limit then mem_limit else none) := by
  intro pod
  have hreq : requestsOf pod =
      some ((if truthyQ cpu_guarantee then [("cpu", cpu_guarantee.getD (.str ""))] else []) ++
            (if truthyQ mem_guarantee then [("memory", mem_guarantee.getD (.str ""))] else [])) := rfl
  have hlim : limitsOf pod =
      some ((if truthyQ cpu_limit then [("cpu", cpu_limit.getD (.str ""))] else []) ++
            (if truthyQ mem_limit then [("memory", mem_limit.getD (.str ""))] else [])) := rfl
  refine ⟨by simp [hreq], by simp [hlim], ?_, ?_, ?_, ?_⟩
  · simpa [hreq] using (condPairs_lookup "cpu" "memory" (by decide) cpu_guarantee mem_guarantee).1
  · simpa [hreq] using (condPairs_lookup "cpu" "memory" (by decide) cpu_guarantee mem_guarantee).2
  · simpa [hlim] using (condPairs_lookup "cpu" "memory" (by decide) cpu_limit mem_limit).1
  · simpa [hlim] using (condPairs_lookup "cpu" "memory" (by decide) cpu_limit mem_limit).2

/-- C5: `make_pod` always creates the pod security context, and it carries
`fs_group` exactly when `fs_gid` is present (with that value) and
`run_as_user` exactly when `run_as_uid` is present, each independently of
the other (all four combinations are instances of this equation). -/
theorem make_pod_security_context {α : Type} (name image_spec image_pull_policy : String)
    (image_pull_secret : Option String) (port : Int) (cmd : List String)
    (node_selector : List (String × String)) (run_as_uid fs_gid : Option Int)
    (env : List (String × String)) (working_dir : String)
    (volumes volume_mounts : List α) (labels : List (String × String))
    (cpu_limit cpu_guarantee mem_limit mem_guarantee : Option Quantity)
    (lifecycle_hooks : Option α) (init_containers : List α) :
    securityContextOf (make_pod name image_spec image_pull_policy image_pull_secret port cmd
        node_selector run_as_uid fs_gid env working_dir volumes volume_mounts labels
        cpu_limit cpu_guarantee mem_limit mem_guarantee lifecycle_hooks init_containers) =
      some { fs_group := fs_gid, run_as_user := run_as_uid } := by
  rcases fs_gid with _ | g <;> rcases run_as_uid with _ | u <;> rfl

/-- C6: the pod spec of `make_pod` leaves `image_pull_secrets` unset when
`image_pull_secret` is `None`, and otherwise sets it to a one-element list
whose entry names the given secret. -/
theorem make_pod_pull_secrets {α : Type} (name image_spec image_pull_policy : String)
    (image_pull_secret : Option String) (port : Int) (cmd : List String)
    (node_selector : List (String × String)) (run_as_uid fs_gid : Option Int)
    (env : List (String × String)) (working_dir : String)
    (volumes volume_mounts : List α) (labels : List (String × String))
    (cpu_limit cpu_guarantee mem_limit mem_guarantee : Option Quantity)
    (lifecycle_hooks : Option α) (init_containers : List α) :
    pullSecretsOf (make_pod name image_spec image_pull_policy image_pull_secret port cmd
        node_selector run_as_uid fs_gid env working_dir volumes volume_mounts labels
        cpu_limit cpu_guarantee mem_limit mem_guarantee lifecycle_hooks init_containers) =
      image_pull_secret.map (fun s => [{ name := some s }]) := by
  rcases image_pull_secret with _ | s <;> rfl

/-- C8: the claim built by `make_pvc` always carries an initialized (possibly
empty) annotation mapping, and that mapping binds the storage-class key
exactly when a (truthy, i.e. nonempty) storage class name is supplied, to
exactly the supplied value. -/
theorem make_pvc_storage_class_annotation (name : String) (storage_class : Option String)
    (access_modes : List String) (storage : String) (labels : List (String × String)) :
    (pvcAnnotations (make_pvc name storage_class access_modes storage labels)).isSome = true ∧
    (pvcAnnotations (make_pvc name storage_class access_modes storage labels)).bind
        (List.lookup "volume.beta.kubernetes.io/storage-class") =
      (match storage_class with
       | some s => if s ≠ "" then some s else none
       | none => none) := by
  rcases storage_class with _ | s
  · exact ⟨rfl, rfl⟩
  · by_cases hs : s = "" <;>
      simp [make_pvc, pvcAnnotations, dictUpdate, dictSet, hs, List.lookup]

example :
    dumpsStr (.obj (.cons "a".toList (.num 1) (.cons "b".toList
      (.arr (.cons (.bool true) (.cons .null
        (.cons (.str ("x\"y\né".toList ++ [Char.ofNat 0x10600])) .nil))))
      (.cons "c".toList (.num (-42)) .nil)))) =
    "\x7b\"a\": 1, \"b\": [true, null, \"x\\\"y\\n\\u00e9\\ud801\\ude00\"], \"c\": -42\x7d" := by
  decide

example : urlparseHostPort "http://10.0.0.5:8000" = .ok (some "10.0.0.5", some 8000) := by
  decide

example : urlparseHostPort "notaurl" = .ok (none, none) := by decide

example : urlparseHostPort "http://user@HOST.com:80/path" = .ok (some "host.com", some 80) := by
  decide

example : urlparseHostPort "http://10.0.0.5:abc" =
    .error "Port could not be cast to integer value as 'abc'" := by decide

/-! ### Properties of the routespec split -/

theorem splitFirst_eq_none {sep : Char} {s : List Char} :
    splitFirst sep s = none ↔ sep ∉ s := by
  induction s with
  | nil => simp [splitFirst]
  | cons c cs ih =>
    simp only [splitFirst]
    by_cases hc : c = sep
    · subst hc; simp
    · simp [hc, Option.map_eq_none', ih, Ne.symm hc]

theorem splitFirst_sound {sep : Char} :
    ∀ {s a b : List Char}, splitFirst sep s = some (a, b) → s = a ++ sep :: b ∧ sep ∉ a := by
  intro s
  induction s with
  | nil => intro a b h; simp [splitFirst] at h
  | cons c cs ih =>
    intro a b h
    simp only [splitFirst] at h
    by_cases hc : c = sep
    · rw [if_pos hc] at h
      obtain ⟨ha, hb⟩ := Prod.mk.injEq .. ▸ Option.some.inj h
      subst ha; subst hb; subst hc
      exact ⟨rfl, List.not_mem_nil _⟩
    · rw [if_neg hc] at h
      cases e : splitFirst sep cs with
      | none => rw [e] at h; simp at h
      | some p =>
        rw [e] at h
        simp only [Option.map_some', Option.some.injEq] at h
        obtain ⟨hcs, hmem⟩ := ih e
        obtain ⟨ha, hb⟩ := Prod.mk.injEq .. ▸ h
        subst hb
        rw [← ha]
        subst hcs
        refine ⟨rfl, ?_⟩
        intro hm
        rcases List.mem_cons.mp hm with h1 | h2
        · exact hc h1.symm
        · exact hmem h2

/-! ### Claims about `make_ingress` routespec/target handling -/

/-- C1 counterexample: for routespec `"example.com/foo"` the code yields
path `"foo"` — the separator is consumed, the claimed leading slash is not
there. -/
theorem make_ingress_routespec_claim_cex :
    parseRoutespec "example.com/foo" = .ok (some "example.com", "foo") ∧
    "foo" ≠ "/foo" ∧
    (make_ingress "svc" "example.com/foo" "http://10.0.0.5:8000" Json.null).toOption.bind
        (fun r => ingressPathOf r.2.2) = some (some "foo") := by
  refine ⟨by decide, by decide, by decide⟩

/-- C1 (amended): a routespec starting with `'/'` yields no host and the
whole routespec as path; otherwise the host is everything before the first
`'/'` and the path is everything after that `'/'` — the separator is
consumed, so the path does not keep a leading slash (e.g.
`"example.com/foo"` gives host `"example.com"` and path `"foo"`). -/
theorem make_ingress_routespec_split (name routespec target : String) (data : Json)
    (e : V1Endpoints) (s : V1Service) (i : V1beta1Ingress)
    (h : make_ingress name routespec target data = .ok (e, s, i)) :
    (startsSlash routespec.toList = true →
      ingressHostOf i = some none ∧ ingressPathOf i = some (some routespec)) ∧
    (startsSlash routespec.toList = false →
      ∃ hs p, routespec.toList = hs ++ '/' :: p ∧ '/' ∉ hs ∧
        ingressHostOf i = some (some (String.mk hs)) ∧
        ingressPathOf i = some (some (String.mk p))) := by
  simp only [make_ingress, bind, Except.bind] at h
  cases hr : parseRoutespec routespec with
  | error m => rw [hr] at h; exact absurd h (by simp)
  | ok hp =>
    rw [hr] at h
    cases hu : urlparseHostPort target with
    | error m => rw [hu] at h; exact absurd h (by simp)
    | ok ipport =>
      rw [hu] at h
      simp only [pure, Except.pure, Except.ok.injEq, Prod.mk.injEq] at h
      obtain ⟨-, -, hi⟩ := h
      subst hi
      unfold parseRoutespec at hr
      constructor
      · intro hsl
        rw [if_pos hsl] at hr
        obtain rfl : (none, routespec) = hp := Except.ok.inj hr
        exact ⟨rfl, rfl⟩
      · intro hsl
        have hsl2 : startsSlash routespec.data = false := hsl
        rw [if_neg (by simp [hsl, hsl2])] at hr
        cases hsp : splitFirst '/' routespec.toList with
        | none => rw [hsp] at hr; exact absurd hr (by simp)
        | some pr =>
          rw [hsp] at hr
          obtain rfl : (some (String.mk pr.1), String.mk pr.2) = hp := Except.ok.inj hr
          obtain ⟨hcat, hnm⟩ := splitFirst_sound hsp
          exact ⟨pr.1, pr.2, hcat, hnm, rfl, rfl⟩

/-- C1 witness: the amended statement evaluated at routespec
`"example.com/foo"`. -/
theorem make_ingress_routespec_split_witness :
    ∃ e s i, make_ingress "svc" "example.com/foo" "http://10.0.0.5:8000" Json.null =
        .ok (e, s, i) ∧
      (startsSlash "example.com/foo".toList = false ∧
       ∃ hs p, "example.com/foo".toList = hs ++ '/' :: p ∧ '/' ∉ hs ∧
         ingressHostOf i = some (some (String.mk hs)) ∧
         ingressPathOf i = some (some (String.mk p))) := by
  refine ⟨_, _, _, rfl, by decide, ?_⟩
  exact (make_ingress_routespec_split "svc" "example.com/foo" "http://10.0.0.5:8000"
    Json.null _ _ _ rfl).2 (by decide)

/-- C2 counterexample: `"notaurl"` is not a well-formed URL with hostname
and port, yet `make_ingress` returns a complete triple whose endpoint
carries `None` for ip and port, instead of propagating a parse error. -/
theorem make_ingress_target_validation_cex :
    urlparseHostPort "notaurl" = .ok (none, none) ∧
    exceptIsOk (make_ingress "svc" "/foo" "notaurl" Json.null) = true ∧
    (make_ingress "svc" "/foo" "notaurl" Json.null).toOption.bind
        (fun r => endpointPortOf r.1) = some none ∧
    (make_ingress "svc" "/foo" "notaurl" Json.null).toOption.bind
        (fun r => endpointIpOf r.1) = some none := by
  refine ⟨by decide, by decide, by decide, by decide⟩

/-- C2 (amended): `make_ingress` does not validate the target URL — when
the routespec parses and hostname/port extraction yields `None`/`None`, it
still returns the full endpoint/service/ingress triple, with the missing
pieces surfacing as `None` fields; an error propagates only when the parse
itself raises (non-integer or out-of-range port text, mismatched IPv6
brackets). -/
theorem make_ingress_missing_host_port (name routespec target : String) (data : Json)
    (hp : Option String × String)
    (h1 : parseRoutespec routespec = .ok hp)
    (h2 : urlparseHostPort target = .ok (none, none)) :
    ∃ e s i, make_ingress name routespec target data = .ok (e, s, i) ∧
      endpointIpOf e = some none ∧ endpointPortOf e = some none ∧
      servicePortOf s = some none ∧ ingressBackendPortOf i = some none := by
  simp only [make_ingress, bind, Except.bind, h1, h2]
  exact ⟨_, _, _, rfl, rfl, rfl, rfl, rfl⟩

/-- C2 witness: the amended statement evaluated at target `"notaurl"`. -/
theorem make_ingress_missing_host_port_witness :
    parseRoutespec "/foo" = .ok (none, "/foo") ∧
    urlparseHostPort "notaurl" = .ok (none, none) ∧
    (∃ e s i, make_ingress "svc" "/foo" "notaurl" Json.null = .ok (e, s, i) ∧
      endpointIpOf e = some none ∧ endpointPortOf e = some none ∧
      servicePortOf s = some none ∧ ingressBackendPortOf i = some none) :=
  ⟨by decide, by decide,
    make_ingress_missing_host_port "svc" "/foo" "notaurl" Json.null (none, "/foo")
      (by decide) (by decide)⟩

/-- C3 counterexample: for routespec `"example.com"` (no `'/'` anywhere)
`make_ingress` does not return normally with an empty path — it raises the
tuple-unpacking `ValueError`. -/
theorem make_ingress_hostonly_cex :
    exceptIsOk (make_ingress "svc" "example.com" "http://10.0.0.5:8000" Json.null) = false ∧
    make_ingress "svc" "example.com" "http://10.0.0.5:8000" Json.null =
      .error "ValueError: not enough values to unpack (expected 2, got 1)" := by
  refine ⟨by decide, by decide⟩

/-- C3 (amended): for every routespec that does not start with `'/'` and
contains no `'/'` at all, `make_ingress` raises the unpacking `ValueError`
(the one-element result of `split('/', 1)` cannot be unpacked into host and
path), regardless of the target. -/
theorem make_ingress_hostonly_raises (name routespec target : String) (data : Json)
    (h1 : startsSlash routespec.toList = false) (h2 : '/' ∉ routespec.toList) :
    make_ingress name routespec target data =
      .error "ValueError: not enough values to unpack (expected 2, got 1)" := by
  have hs : splitFirst '/' routespec.toList = none := splitFirst_eq_none.mpr h2
  have h1d : startsSlash routespec.data = false := h1
  have hsd : splitFirst '/' routespec.data = none := hs
  simp [make_ingress, parseRoutespec, h1, hs, h1d, hsd, bind, Except.bind]

/-- C3 witness: the amended statement evaluated at routespec
`"example.com"`. -/
theorem make_ingress_hostonly_raises_witness :
    startsSlash "example.com".toList = false ∧ '/' ∉ "example.com".toList ∧
    make_ingress "svc" "example.com" "http://10.0.0.5:8000" Json.null =
      .error "ValueError: not enough values to unpack (expected 2, got 1)" :=
  ⟨by decide, by decide,
    make_ingress_hostonly_raises "svc" "example.com" "http://10.0.0.5:8000" Json.null
      (by decide) (by decide)⟩

/-- C7: whenever `make_ingress` returns, the endpoint, service and ingress
share identical metadata — the resource name, the three proxy annotations
(raw routespec, raw target, JSON-serialized payload) and the fixed proxy
labels — and the endpoint subset port, the service port and target_port,
and the ingress backend service_port all equal the port parsed from the
target URL, whose hostname is the endpoint address ip; the backend also
names the service. -/
theorem make_ingress_shared_meta_port (name routespec target : String) (data : Json)
    (e : V1Endpoints) (s : V1Service) (i : V1beta1Ingress)
    (h : make_ingress name routespec target data = .ok (e, s, i)) :
    e.metadata = s.metadata ∧ s.metadata = i.metadata ∧
    e.metadata = some
      { name := some name
        annotations := some [
          ("hub.jupyter.org/proxy-data", dumpsStr data),
          ("hub.jupyter.org/proxy-routespec", routespec),
          ("hub.jupyter.org/proxy-target", target)]
        labels := some [
          ("heritage", "jupyterhub"),
          ("component", "singleuser-server"),
          ("hub.jupyter.org/proxy-route", "true")] } ∧
    ∃ ip p, urlparseHostPort target = .ok (ip, p) ∧
      endpointIpOf e = some ip ∧ endpointPortOf e = some p ∧
      servicePortOf s = some p ∧ serviceTargetPortOf s = some p ∧
      ingressBackendPortOf i = some p ∧ ingressBackendNameOf i = some (some name) := by
  simp only [make_ingress, bind, Except.bind] at h
  cases hr : parseRoutespec routespec with
  | error m => rw [hr] at h; exact absurd h (by simp)
  | ok hp =>
    rw [hr] at h
    cases hu : urlparseHostPort target with
    | error m => rw [hu] at h; exact absurd h (by simp)
    | ok ipport =>
      obtain ⟨ip, p⟩ := ipport
      rw [hu] at h
      simp only [pure, Except.pure, Except.ok.injEq, Prod.mk.injEq] at h
      obtain ⟨he, hs2, hi⟩ := h
      subst he; subst hs2; subst hi
      exact ⟨rfl, rfl, rfl, ip, p, rfl, rfl, rfl, rfl, rfl, rfl, rfl⟩

/-- C7 witness: for target `"http://10.0.0.5:8000"` the parsed ip is
`"10.0.0.5"` and all three objects reference port `8000`. -/
theorem make_ingress_shared_meta_port_witness :
    urlparseHostPort "http://10.0.0.5:8000" = .ok (some "10.0.0.5", some 8000) ∧
    ∃ e s i, make_ingress "svc" "/foo" "http://10.0.0.5:8000" Json.null = .ok (e, s, i) ∧
      (e.metadata = s.metadata ∧ s.metadata = i.metadata ∧
       e.metadata = some
         { name := some "svc"
           annotations := some [
             ("hub.jupyter.org/proxy-data", dumpsStr Json.null),
             ("hub.jupyter.org/proxy-routespec", "/foo"),
             ("hub.jupyter.org/proxy-target", "http://10.0.0.5:8000")]
           labels := some [
             ("heritage", "jupyterhub"),
             ("component", "singleuser-server"),
             ("hub.jupyter.org/proxy-route", "true")] } ∧
       ∃ ip p, urlparseHostPort "http://10.0.0.5:8000" = .ok (ip, p) ∧
         endpointIpOf e = some ip ∧ endpointPortOf e = some p ∧
         servicePortOf s = some p ∧ serviceTargetPortOf s = some p ∧
         ingressBackendPortOf i = some p ∧ ingressBackendNameOf i = some (some "svc")) := by
  refine ⟨by decide, _, _, _, rfl, ?_⟩
  exact make_ingress_shared_meta_port "svc" "/foo" "http://10.0.0.5:8000" Json.null _ _ _ rfl

/-- C10: for target `"http://10.0.0.5:abc"` the URL's hostname is present
(`"10.0.0.5"`) but its port text is non-numeric, and `make_ingress`
propagates the port-cast `ValueError` — a failure shape beyond the spec's
"missing host or port" class. -/
theorem make_ingress_nonnumeric_port_raises :
    urlsplitNetloc "http://10.0.0.5:abc".toList = .ok "10.0.0.5:abc".toList ∧
    hostinfoOf "10.0.0.5:abc".toList = ("10.0.0.5".toList, some "abc".toList) ∧
    pyIntBase10 "abc".toList = none ∧
    make_ingress "svc" "/foo" "http://10.0.0.5:abc" Json.null =
      .error "Port could not be cast to integer value as 'abc'" := by
  refine ⟨by decide, by decide, by decide, by decide⟩

example : loads "\x7b\"a\": [1, -20, true, null], \"b\": \"x\\u00e9\\nq\"\x7d" =
    .ok (.obj (.cons "a".toList
      (.arr (.cons (.num 1) (.cons (.num (-20)) (.cons (.bool true) (.cons .null .nil)))))
      (.cons "b".toList (.str "xé\nq".toList) .nil))) := by decide

example : loads "\"\\ud801\\ude00 ok\"" =
    .ok (.str (Char.ofNat 0x10600 :: " ok".toList)) := by decide

example : loads "[nope]" = .error "Expecting value" := by decide

/-! ### Round trip, part 1: characters, hex digits, string literals -/

theorem char_valid_nat (c : Char) :
    c.toNat < 0xd800 ∨ (0xdfff < c.toNat ∧ c.toNat < 0x110000) := c.valid

theorem char_ne_of_toNat_ne {c d : Char} (h : c.toNat ≠ d.toNat) : c ≠ d := by
  intro he
  exact h (by rw [he])

theorem char_eq_ofNat {c : Char} {n : Nat} (h : c.toNat = n) : Char.ofNat n = c := by
  rw [← h, Char.ofNat_toNat]

theorem hexVal_hexDig {x : Nat} (h : x < 16) : hexVal (hexDig x) = some x := by
  interval_cases x <;> decide

theorem hex4_recompose {n : Nat} (h : n < 65536) :
    ((n / 4096 % 16 * 16 + n / 256 % 16) * 16 + n / 16 % 16) * 16 + n % 16 = n := by
  omega

theorem escChar_length_pos (c : Char) : 1 ≤ (escChar c).length := by
  unfold escChar
  split_ifs <;> simp [hex4]

theorem length_le_escBody (s : List Char) : s.length ≤ (escBody s).length := by
  induction s with
  | nil => simp [escBody]
  | cons c cs ih =>
    have h1 := escChar_length_pos c
    simp only [escBody, List.length_append, List.length_cons]
    omega

theorem hexVal_mod16 (x : Nat) : hexVal (hexDig (x % 16)) = some (x % 16) :=
  hexVal_hexDig (Nat.mod_lt _ (by norm_num))

theorem readHex4_hex4 {n : Nat} (h : n < 65536) (tail : List Char) :
    readHex4 (hex4 n ++ tail) = some (n, tail) := by
  simp only [hex4, List.cons_append, List.nil_append, readHex4, hexVal_mod16]
  rw [hex4_recompose h]

theorem decodeU_bmp {n : Nat} (hn : n < 65536)
    (hlow : ¬(0xd800 ≤ n ∧ n ≤ 0xdbff)) (hhigh : ¬(0xdc00 ≤ n ∧ n ≤ 0xdfff))
    (k : List Char → Option (List Char × List Char)) (tail : List Char) :
    decodeU k (hex4 n ++ tail) = (k tail).map (fun pr => (Char.ofNat n :: pr.1, pr.2)) := by
  simp only [decodeU, readHex4_hex4 hn]
  simp [hlow, hhigh]

theorem decodeU_surrogate_gen {hi lo n : Nat}
    (h1 : 0xd800 ≤ hi) (h2 : hi ≤ 0xdbff) (h3 : 0xdc00 ≤ lo) (h4 : lo ≤ 0xdfff)
    (hn : 0x10000 + (hi - 0xd800) * 0x400 + (lo - 0xdc00) = n)
    (k : List Char → Option (List Char × List Char)) (tail : List Char) :
    decodeU k (hex4 hi ++ ('\\' :: 'u' :: (hex4 lo ++ tail))) =
      (k tail).map (fun pr => (Char.ofNat n :: pr.1, pr.2)) := by
  simp only [decodeU, readHex4_hex4 (show hi < 65536 by omega),
    readHex4_hex4 (show lo < 65536 by omega)]
  rw [if_pos (And.intro h1 h2)]
  simp only [and_self, if_true]
  rw [if_pos (And.intro h3 h4)]
  rw [hn]

theorem parseStr_u_escape {n : Nat} (hn : n < 65536)
    (hlow : ¬(0xd800 ≤ n ∧ n ≤ 0xdbff)) (hhigh : ¬(0xdc00 ≤ n ∧ n ≤ 0xdfff))
    (f : Nat) (tail : List Char) :
    parseStr (f + 1) ('\\' :: 'u' :: (hex4 n ++ tail)) =
      (parseStr f tail).map (fun pr => (Char.ofNat n :: pr.1, pr.2)) := by
  simp only [parseStr]
  simp [decodeU_bmp hn hlow hhigh]

theorem parseStr_surrogate_pair {n : Nat} (hn : 65536 ≤ n) (hlt : n < 0x110000)
    (f : Nat) (tail : List Char) :
    parseStr (f + 1)
      ('\\' :: 'u' :: (hex4 (0xd800 + (n - 0x10000) / 0x400) ++
        ('\\' :: 'u' :: (hex4 (0xdc00 + (n - 0x10000) % 0x400) ++ tail)))) =
      (parseStr f tail).map (fun pr => (Char.ofNat n :: pr.1, pr.2)) := by
  have hm := Nat.mod_lt (n - 0x10000) (show 0 < 0x400 by norm_num)
  have h := @decodeU_surrogate_gen (0xd800 + (n - 0x10000) / 0x400)
    (0xdc00 + (n - 0x10000) % 0x400) n
    (by omega) (by omega) (by omega) (by omega) (by omega) (parseStr f) tail
  simp only [parseStr]
  simp [h]

theorem parseStr_escBody (s : List Char) :
    ∀ f rest, s.length < f → parseStr f (escBody s ++ '"' :: rest) = some (s, rest) := by
  induction s with
  | nil =>
    intro f rest hf
    obtain ⟨f', rfl⟩ : ∃ f', f = f' + 1 := ⟨f - 1, by omega⟩
    simp [escBody, parseStr]
  | cons c cs ih =>
    intro f rest hf
    obtain ⟨f', rfl⟩ : ∃ f', f = f' + 1 := ⟨f - 1, by omega⟩
    have hf' : cs.length < f' := by
      simp only [List.length_cons] at hf
      omega
    have IH := ih f' rest hf'
    by_cases h1 : c = '\\'
    · subst h1
      simp only [escBody, escChar, if_pos rfl, List.cons_append, List.nil_append]
      simp [parseStr, escMap, IH]
    · by_cases h2 : c = '"'
      · subst h2
        have hesc : escChar '"' = ['\\', '"'] := by decide
        simp only [escBody, hesc, List.cons_append, List.nil_append]
        simp [parseStr, escMap, IH]
      · by_cases h3 : 0x20 ≤ c.toNat ∧ c.toNat ≤ 0x7e
        · simp only [escBody, escChar, if_neg h1, if_neg h2, if_pos h3,
            List.cons_append, List.nil_append]
          simp only [parseStr, if_neg h2, if_neg h1, if_pos h3.1, IH]
          rfl
        · by_cases h4 : c.toNat = 8
          · simp only [escBody, escChar, if_neg h1, if_neg h2, if_neg h3, if_pos h4,
              List.cons_append, List.nil_append]
            simp [parseStr, escMap, IH]
            exact char_eq_ofNat h4
          · by_cases h5 : c.toNat = 12
            · simp only [escBody, escChar, if_neg h1, if_neg h2, if_neg h3, if_neg h4,
                if_pos h5, List.cons_append, List.nil_append]
              simp [parseStr, escMap, IH]
              exact char_eq_ofNat h5
            · by_cases h6 : c.toNat = 10
              · simp only [escBody, escChar, if_neg h1, if_neg h2, if_neg h3, if_neg h4,
                  if_neg h5, if_pos h6, List.cons_append, List.nil_append]
                simp [parseStr, escMap, IH]
                exact char_eq_ofNat h6
              · by_cases h7 : c.toNat = 13
                · simp only [escBody, escChar, if_neg h1, if_neg h2, if_neg h3, if_neg h4,
                    if_neg h5, if_neg h6, if_pos h7, List.cons_append, List.nil_append]
                  simp [parseStr, escMap, IH]
                  exact char_eq_ofNat h7
                · by_cases h8 : c.toNat = 9
                  · simp only [escBody, escChar, if_neg h1, if_neg h2, if_neg h3, if_neg h4,
                      if_neg h5, if_neg h6, if_neg h7, if_pos h8, List.cons_append,
                      List.nil_append]
                    simp [parseStr, escMap, IH]
                    exact char_eq_ofNat h8
                  · by_cases h9 : c.toNat < 0x10000
                    · -- single \uXXXX escape: c is a BMP char outside the handled ranges
                      have hval := char_valid_nat c
                      simp only [escBody, escChar, if_neg h1, if_neg h2, if_neg h3, if_neg h4,
                        if_neg h5, if_neg h6, if_neg h7, if_neg h8, if_pos h9,
                        List.cons_append, List.append_assoc]
                      rw [parseStr_u_escape h9 (by omega) (by omega), IH,
                        Option.map_some', Char.ofNat_toNat]
                    · -- astral char: surrogate pair
                      have hval := char_valid_nat c
                      have hge : 65536 ≤ c.toNat := by omega
                      have hlt : c.toNat < 0x110000 := by omega
                      simp only [escBody, escChar, if_neg h1, if_neg h2, if_neg h3, if_neg h4,
                        if_neg h5, if_neg h6, if_neg h7, if_neg h8, if_neg h9,
                        List.cons_append, List.append_assoc, List.nil_append]
                      rw [parseStr_surrogate_pair hge hlt, IH,
                        Option.map_some', Char.ofNat_toNat]

theorem natOfDigits_append (l : List Char) (c : Char) :
    natOfDigits (l ++ [c]) = natOfDigits l * 10 + (c.toNat - 48) := by
  simp [natOfDigits, List.foldl_append]

theorem natDigits_eq_digits : ∀ f n, n ≤ f → natDigits f n = Nat.digits 10 n := by
  intro f
  induction f with
  | zero =>
    intro n h
    obtain rfl : n = 0 := by omega
    simp [natDigits]
  | succ f ih =>
    intro n h
    cases n with
    | zero => simp [natDigits]
    | succ m =>
      rw [show natDigits (f + 1) (m + 1) = ((m + 1) % 10) :: natDigits f ((m + 1) / 10)
        from rfl]
      rw [ih ((m + 1) / 10) (by omega)]
      rw [Nat.digits_def' (by norm_num : 1 < 10) (Nat.succ_pos m)]

theorem hexDig_toNat {d : Nat} (h : d < 10) : (hexDig d).toNat = 48 + d := by
  interval_cases d <;> decide

theorem isDig_hexDig {d : Nat} (h : d < 10) : isDig (hexDig d) = true := by
  interval_cases d <;> decide

theorem natOfDigits_rev_map {ds : List Nat} (h : ∀ d ∈ ds, d < 10) :
    natOfDigits ((ds.map (fun d => hexDig d)).reverse) = Nat.ofDigits 10 ds := by
  induction ds with
  | nil => rfl
  | cons d ds ih =>
    have hd : d < 10 := h d (by simp)
    simp only [List.map_cons, List.reverse_cons]
    rw [natOfDigits_append, ih (fun x hx => h x (by simp [hx])), hexDig_toNat hd,
      Nat.ofDigits_cons]
    omega

theorem natOfDigits_encNat (n : Nat) : natOfDigits (encNat n) = n := by
  by_cases h : n = 0
  · subst h; decide
  · unfold encNat
    rw [if_neg h, natDigits_eq_digits n n le_rfl,
      natOfDigits_rev_map (fun d hd => Nat.digits_lt_base (by norm_num) hd),
      Nat.ofDigits_digits]

theorem encNat_ne_nil (n : Nat) : encNat n ≠ [] := by
  unfold encNat
  split
  · simp
  · rename_i h
    rw [natDigits_eq_digits n n le_rfl]
    simp only [ne_eq, List.reverse_eq_nil_iff, List.map_eq_nil_iff]
    exact Nat.digits_ne_nil_iff_ne_zero.mpr h

theorem encNat_all_dig {n : Nat} : ∀ c ∈ encNat n, isDig c = true := by
  unfold encNat
  split
  · intro c hc
    simp at hc
    subst hc
    decide
  · intro c hc
    rw [natDigits_eq_digits n n le_rfl, List.mem_reverse] at hc
    obtain ⟨d, hd, rfl⟩ := List.mem_map.mp hc
    exact isDig_hexDig (Nat.digits_lt_base (by norm_num) hd)

theorem spanDigits_append {l r : List Char} (hl : ∀ c ∈ l, isDig c = true)
    (hr : headNotDigit r) : spanDigits (l ++ r) = (l, r) := by
  induction l with
  | nil =>
    cases r with
    | nil => rfl
    | cons c cs =>
      have hc : isDig c = false := hr
      simp [spanDigits, hc]
  | cons c cs ih =>
    simp only [List.cons_append, spanDigits]
    rw [if_pos (hl c (by simp))]
    simp [ih (fun x hx => hl x (by simp [hx]))]

theorem parseNum_encInt (n : Int) {rest : List Char} (hr : headNotDigit rest) :
    parseNum (encInt n ++ rest) = some (.num n, rest) := by
  cases n with
  | ofNat k =>
    show parseNum (encNat k ++ rest) = some (.num (Int.ofNat k), rest)
    obtain ⟨c, cs, hc⟩ : ∃ c cs, encNat k = c :: cs := by
      cases h : encNat k with
      | nil => exact absurd h (encNat_ne_nil k)
      | cons a b => exact ⟨a, b, rfl⟩
    have hcd : isDig c = true := encNat_all_dig c (by rw [hc]; simp)
    have hcm : ¬ c = '-' := by
      intro h
      subst h
      simp [isDig] at hcd
    have hsp : spanDigits (c :: (cs ++ rest)) = (c :: cs, rest) :=
      spanDigits_append (fun x hx => encNat_all_dig x (by rw [hc]; exact hx)) hr
    rw [hc]
    simp only [List.cons_append, parseNum]
    rw [if_neg hcm, hsp]
    simp only [List.cons_ne_self, if_neg (by simp : ¬(c :: cs) = [])]
    rw [← hc, natOfDigits_encNat]
  | negSucc m =>
    show parseNum (('-' :: encNat (m + 1)) ++ rest) = _
    have hsp := @spanDigits_append (encNat (m + 1)) rest
      (fun x hx => encNat_all_dig x hx) hr
    simp only [List.cons_append, parseNum]
    rw [hsp]
    simp [encNat_ne_nil]
    rw [natOfDigits_encNat, Int.negSucc_eq]
    push_cast
    ring

/-! ### Round trip, part 3: token heads, whitespace, sizes -/

theorem char_ne_of_toNat_ne_lit {c d : Char} {m : Nat} (hd : d.toNat = m)
    (h : c.toNat ≠ m) : c ≠ d :=
  char_ne_of_toNat_ne (by rw [hd]; exact h)

theorem isWs_eq_false {c : Char} (h1 : c.toNat ≠ 32) (h2 : c.toNat ≠ 9)
    (h3 : c.toNat ≠ 10) (h4 : c.toNat ≠ 13) : isWs c = false := by
  have e1 : c ≠ ' ' := char_ne_of_toNat_ne_lit rfl h1
  have e2 : c ≠ '\t' := char_ne_of_toNat_ne_lit rfl h2
  have e3 : c ≠ '\n' := char_ne_of_toNat_ne_lit rfl h3
  have e4 : c ≠ '\r' := char_ne_of_toNat_ne_lit rfl h4
  simp [isWs, e1, e2, e3, e4]

theorem encInt_head (n : Int) :
    ∃ c cs, encInt n = c :: cs ∧ (c.toNat = 45 ∨ (48 ≤ c.toNat ∧ c.toNat ≤ 57)) := by
  cases n with
  | ofNat k =>
    obtain ⟨c, cs, hc⟩ : ∃ c cs, encNat k = c :: cs := by
      cases h : encNat k with
      | nil => exact absurd h (encNat_ne_nil k)
      | cons a b => exact ⟨a, b, rfl⟩
    have hcd := encNat_all_dig c (by rw [hc]; simp)
    simp only [isDig, Bool.and_eq_true, decide_eq_true_eq] at hcd
    exact ⟨c, cs, hc, Or.inr hcd⟩
  | negSucc m => exact ⟨'-', encNat (m + 1), rfl, Or.inl (by decide)⟩

theorem dumps_head (v : Json) :
    ∃ c cs, dumps v = c :: cs ∧ isWs c = false ∧ c ≠ ']' := by
  cases v with
  | null => exact ⟨'n', _, rfl, by decide, by decide⟩
  | bool b =>
    cases b with
    | true => exact ⟨'t', _, rfl, by decide, by decide⟩
    | false => exact ⟨'f', _, rfl, by decide, by decide⟩
  | num n =>
    obtain ⟨c, cs, hc, hp⟩ := encInt_head n
    rcases hp with h | h
    · exact ⟨c, cs, hc, isWs_eq_false (by omega) (by omega) (by omega) (by omega),
        char_ne_of_toNat_ne_lit (show (']' : Char).toNat = 93 by decide) (by omega)⟩
    · exact ⟨c, cs, hc, isWs_eq_false (by omega) (by omega) (by omega) (by omega),
        char_ne_of_toNat_ne_lit (show (']' : Char).toNat = 93 by decide) (by omega)⟩
  | str s => exact ⟨'"', _, rfl, by decide, by decide⟩
  | arr xs =>
    cases xs with
    | nil => exact ⟨'[', _, rfl, by decide, by decide⟩
    | cons v tl => exact ⟨'[', _, rfl, by decide, by decide⟩
  | obj kvs =>
    cases kvs with
    | nil => exact ⟨'{', _, rfl, by decide, by decide⟩
    | cons k v tl => exact ⟨'{', _, rfl, by decide, by decide⟩

theorem skipWs_cons_of_not_ws {c : Char} {cs : List Char} (h : isWs c = false) :
    skipWs (c :: cs) = c :: cs := by
  simp [skipWs, h]

theorem parseVal_ws (f : Nat) (x : List Char) : parseVal f (' ' :: x) = parseVal f x := by
  cases f with
  | zero => rfl
  | succ f =>
    have h : skipWs (' ' :: x) = skipWs x := by simp [skipWs, isWs]
    simp only [parseVal, h]

theorem parseItems_ws (f : Nat) (x : List Char) :
    parseItems f (' ' :: x) = parseItems f x := by
  cases f with
  | zero => rfl
  | succ f => simp only [parseItems, parseVal_ws]

theorem parseMembers_ws (f : Nat) (x : List Char) :
    parseMembers f (' ' :: x) = parseMembers f x := by
  cases f with
  | zero => rfl
  | succ f =>
    have h : skipWs (' ' :: x) = skipWs x := by simp [skipWs, isWs]
    simp only [parseMembers, h]

theorem jsize_pos (v : Json) : 1 ≤ jsize v := by
  cases v <;> simp [jsize]

theorem headNotDigit_items (tl : JsonList) (rest : List Char) :
    headNotDigit (dumpsItems tl ++ ']' :: rest) := by
  cases tl with
  | nil => show isDig ']' = false; decide
  | cons v tl2 => show isDig ',' = false; decide

theorem headNotDigit_members (tl : JsonObj) (rest : List Char) :
    headNotDigit (dumpsMembers tl ++ '}' :: rest) := by
  cases tl with
  | nil => show isDig '}' = false; decide
  | cons k v tl2 => show isDig ',' = false; decide

/-! ### Round trip, part 4: the main parse-after-render theorems -/

mutual

theorem parseVal_dumps (v : Json) : ∀ f rest, jsize v ≤ f → headNotDigit rest →
    parseVal f (dumps v ++ rest) = some (v, rest) := by
  intro f rest hf hr
  have hpos := jsize_pos v
  obtain ⟨f', rfl⟩ : ∃ f', f = f' + 1 := ⟨f - 1, by omega⟩
  cases v with
  | null =>
    show parseVal (f' + 1) (('n' :: 'u' :: 'l' :: 'l' :: []) ++ rest) = some (.null, rest)
    simp [parseVal, skipWs, isWs]
  | bool b =>
    cases b with
    | true =>
      show parseVal (f' + 1) (('t' :: 'r' :: 'u' :: 'e' :: []) ++ rest) =
        some (.bool true, rest)
      simp [parseVal, skipWs, isWs]
    | false =>
      show parseVal (f' + 1) (('f' :: 'a' :: 'l' :: 's' :: 'e' :: []) ++ rest) =
        some (.bool false, rest)
      simp [parseVal, skipWs, isWs]
  | num n =>
    obtain ⟨c, cs, hc, hp⟩ := encInt_head n
    have hw : isWs c = false := by
      rcases hp with h | h <;>
        exact isWs_eq_false (by omega) (by omega) (by omega) (by omega)
    have hn1 : c ≠ 'n' := by
      rcases hp with h | h <;>
        exact char_ne_of_toNat_ne_lit (show ('n' : Char).toNat = 110 by decide) (by omega)
    have hn2 : c ≠ 't' := by
      rcases hp with h | h <;>
        exact char_ne_of_toNat_ne_lit (show ('t' : Char).toNat = 116 by decide) (by omega)
    have hn3 : c ≠ 'f' := by
      rcases hp with h | h <;>
        exact char_ne_of_toNat_ne_lit (show ('f' : Char).toNat = 102 by decide) (by omega)
    have hn4 : c ≠ '"' := by
      rcases hp with h | h <;>
        exact char_ne_of_toNat_ne_lit (show ('"' : Char).toNat = 34 by decide) (by omega)
    have hn5 : c ≠ '[' := by
      rcases hp with h | h <;>
        exact char_ne_of_toNat_ne_lit (show ('[' : Char).toNat = 91 by decide) (by omega)
    have hn6 : c ≠ '{' := by
      rcases hp with h | h <;>
        exact char_ne_of_toNat_ne_lit (show ('{' : Char).toNat = 123 by decide) (by omega)
    have hpn := parseNum_encInt n hr
    rw [hc] at hpn
    show parseVal (f' + 1) (encInt n ++ rest) = some (.num n, rest)
    rw [hc]
    simp only [List.cons_append, parseVal, skipWs_cons_of_not_ws hw]
    rw [if_neg hn1, if_neg hn2, if_neg hn3, if_neg hn4, if_neg hn5, if_neg hn6]
    simpa using hpn
  | str s =>
    have hb : s.length < (escBody s ++ '"' :: rest).length + 1 := by
      have := length_le_escBody s
      simp only [List.length_append, List.length_cons]
      omega
    have hps := parseStr_escBody s ((escBody s).length + (rest.length + 1) + 1) rest
      (by have := length_le_escBody s; omega)
    show parseVal (f' + 1) (('"' :: (escBody s ++ ['"'])) ++ rest) = some (.str s, rest)
    simp only [List.cons_append, List.append_assoc, List.nil_append]
    simp [parseVal, skipWs_cons_of_not_ws (show isWs '"' = false by decide), hps]
  | arr xs =>
    cases xs with
    | nil => simp [dumps, parseVal, skipWs, isWs]
    | cons v tl =>
      obtain ⟨c, cs, hc, hw, hne⟩ := dumps_head v
      have hsz : lsize (JsonList.cons v tl) ≤ f' := by
        have : jsize (Json.arr (JsonList.cons v tl)) = 1 + lsize (JsonList.cons v tl) := rfl
        omega
      have hpi := parseItems_dumps v tl f' rest hsz
      show parseVal (f' + 1) (('[' :: (dumps v ++ dumpsItems tl ++ [']'])) ++ rest) =
        some (.arr (.cons v tl), rest)
      simp only [List.cons_append, List.append_assoc, List.nil_append]
      simp only [parseVal, skipWs_cons_of_not_ws (show isWs '[' = false by decide)]
      rw [if_neg (by decide : ¬('[' : Char) = 'n'), if_neg (by decide : ¬('[' : Char) = 't'),
        if_neg (by decide : ¬('[' : Char) = 'f'), if_neg (by decide : ¬('[' : Char) = '"')]
      rw [if_pos trivial]
      rw [hc] at hpi ⊢
      simp only [List.cons_append] at hpi ⊢
      rw [skipWs_cons_of_not_ws hw]
      simp only [if_neg hne, hpi]
  | obj kvs =>
    cases kvs with
    | nil => simp [dumps, parseVal, skipWs, isWs]
    | cons k v tl =>
      have hsz : msize (JsonObj.cons k v tl) ≤ f' := by
        have : jsize (Json.obj (JsonObj.cons k v tl)) = 1 + msize (JsonObj.cons k v tl) := rfl
        omega
      have hpm := parseMembers_dumps k v tl f' rest hsz
      show parseVal (f' + 1)
        (('{' :: (encString k ++ ':' :: ' ' :: dumps v ++ dumpsMembers tl ++ ['}'])) ++ rest) =
        some (.obj (.cons k v tl), rest)
      simp only [encString, List.cons_append, List.append_assoc, List.nil_append] at hpm ⊢
      simp only [parseVal, skipWs_cons_of_not_ws (show isWs '{' = false by decide)]
      rw [if_neg (by decide : ¬('{' : Char) = 'n'), if_neg (by decide : ¬('{' : Char) = 't'),
        if_neg (by decide : ¬('{' : Char) = 'f'), if_neg (by decide : ¬('{' : Char) = '"'),
        if_neg (by decide : ¬('{' : Char) = '[')]
      rw [if_pos trivial]
      rw [skipWs_cons_of_not_ws (show isWs '"' = false by decide)]
      simp only [if_neg (by decide : ¬('"' : Char) = '}'), hpm]
termination_by sizeOf v

theorem parseItems_dumps (v : Json) (tl : JsonList) : ∀ f rest,
    lsize (JsonList.cons v tl) ≤ f →
    parseItems f (dumps v ++ (dumpsItems tl ++ (']' :: rest))) =
      some (.cons v tl, rest) := by
  intro f rest hf
  obtain ⟨f', rfl⟩ : ∃ f', f = f' + 1 := ⟨f - 1, by
    have : lsize (JsonList.cons v tl) = 1 + jsize v + lsize tl := rfl
    omega⟩
  have hszv : jsize v ≤ f' := by
    have : lsize (JsonList.cons v tl) = 1 + jsize v + lsize tl := rfl
    omega
  have hpv := parseVal_dumps v f' (dumpsItems tl ++ ']' :: rest) hszv
    (headNotDigit_items tl rest)
  simp only [parseItems, hpv]
  cases tl with
  | nil =>
    show (match skipWs (']' :: rest) with
      | [] => none
      | d :: r2 =>
        if d = ']' then some (JsonList.cons v .nil, r2)
        else if d = ',' then
          match parseItems f' r2 with
          | none => none
          | some (tl, r3) => some (JsonList.cons v tl, r3)
        else none) = some (JsonList.cons v .nil, rest)
    rw [skipWs_cons_of_not_ws (show isWs ']' = false by decide)]
    simp
  | cons v2 tl2 =>
    have hsz2 : lsize (JsonList.cons v2 tl2) ≤ f' := by
      have h1 : lsize (JsonList.cons v (JsonList.cons v2 tl2)) =
        1 + jsize v + lsize (JsonList.cons v2 tl2) := rfl
      have h2 := jsize_pos v
      omega
    have hpi2 := parseItems_dumps v2 tl2 f' rest hsz2
    show (match skipWs ((',' :: ' ' :: (dumps v2 ++ dumpsItems tl2)) ++ ']' :: rest) with
      | [] => none
      | d :: r2 =>
        if d = ']' then some (JsonList.cons v .nil, r2)
        else if d = ',' then
          match parseItems f' r2 with
          | none => none
          | some (tl, r3) => some (JsonList.cons v tl, r3)
        else none) = some (JsonList.cons v (JsonList.cons v2 tl2), rest)
    simp only [List.cons_append, List.append_assoc]
    rw [skipWs_cons_of_not_ws (show isWs ',' = false by decide)]
    simp only [if_neg (by decide : ¬(',' : Char) = ']')]
    rw [if_pos trivial, parseItems_ws, hpi2]
termination_by sizeOf v + sizeOf tl
decreasing_by all_goals first
  | decreasing_tactic
  | (simp_wf; cases tl <;> simp_arith)

theorem parseMembers_dumps (k : List Char) (v : Json) (tl : JsonObj) : ∀ f rest,
    msize (JsonObj.cons k v tl) ≤ f →
    parseMembers f
      ('"' :: (escBody k ++ ('"' :: (':' :: ' ' ::
        (dumps v ++ (dumpsMembers tl ++ ('}' :: rest))))))) =
      some (.cons k v tl, rest) := by
  intro f rest hf
  obtain ⟨f', rfl⟩ : ∃ f', f = f' + 1 := ⟨f - 1, by
    have : msize (JsonObj.cons k v tl) = 1 + jsize v + msize tl := rfl
    omega⟩
  have hszv : jsize v ≤ f' := by
    have : msize (JsonObj.cons k v tl) = 1 + jsize v + msize tl := rfl
    omega
  have hb : k.length <
      (escBody k ++ '"' :: (':' :: ' ' ::
        (dumps v ++ (dumpsMembers tl ++ ('}' :: rest))))).length + 1 := by
    have := length_le_escBody k
    simp only [List.length_append, List.length_cons]
    omega
  have hps := parseStr_escBody k
    ((escBody k ++ '"' :: (':' :: ' ' ::
      (dumps v ++ (dumpsMembers tl ++ ('}' :: rest))))).length + 1)
    (':' :: ' ' :: (dumps v ++ (dumpsMembers tl ++ ('}' :: rest)))) hb
  have hpv := parseVal_dumps v f' (dumpsMembers tl ++ '}' :: rest) hszv
    (headNotDigit_members tl rest)
  simp only [parseMembers, skipWs_cons_of_not_ws (show isWs '"' = false by decide)]
  rw [if_pos trivial, hps]
  simp only [skipWs_cons_of_not_ws (show isWs ':' = false by decide), eq_self_iff_true,
    if_true, parseVal_ws, hpv]
  cases tl with
  | nil =>
    show (match skipWs ('}' :: rest) with
      | [] => none
      | e2 :: r4 =>
        if e2 = '}' then some (JsonObj.cons k v .nil, r4)
        else if e2 = ',' then
          match parseMembers f' r4 with
          | none => none
          | some (tl, r5) => some (JsonObj.cons k v tl, r5)
        else none) = some (JsonObj.cons k v .nil, rest)
    rw [skipWs_cons_of_not_ws (show isWs '}' = false by decide)]
    simp
  | cons k2 v2 tl2 =>
    have hsz2 : msize (JsonObj.cons k2 v2 tl2) ≤ f' := by
      have h1 : msize (JsonObj.cons k v (JsonObj.cons k2 v2 tl2)) =
        1 + jsize v + msize (JsonObj.cons k2 v2 tl2) := rfl
      have h2 := jsize_pos v
      omega
    have hpm2 := parseMembers_dumps k2 v2 tl2 f' rest hsz2
    show (match skipWs
        ((',' :: ' ' :: (encString k2 ++ ':' :: ' ' :: dumps v2 ++ dumpsMembers tl2)) ++
          '}' :: rest) with
      | [] => none
      | e2 :: r4 =>
        if e2 = '}' then some (JsonObj.cons k v .nil, r4)
        else if e2 = ',' then
          match parseMembers f' r4 with
          | none => none
          | some (tl, r5) => some (JsonObj.cons k v tl, r5)
        else none) = some (JsonObj.cons k v (JsonObj.cons k2 v2 tl2), rest)
    simp only [encString, List.cons_append, List.append_assoc, List.nil_append]
    rw [skipWs_cons_of_not_ws (show isWs ',' = false by decide)]
    simp only [if_neg (by decide : ¬(',' : Char) = '}')]
    rw [if_pos trivial, parseMembers_ws]
    simp only [List.cons_append, List.append_assoc] at hpm2
    rw [hpm2]
termination_by sizeOf v + sizeOf tl
decreasing_by all_goals first
  | decreasing_tactic
  | (simp_wf; cases tl <;> simp_arith)

end

/-! ### Round trip, part 5: `loads` undoes `dumps` -/

mutual

theorem jsize_le_length (v : Json) : jsize v ≤ (dumps v).length := by
  cases v with
  | null => decide
  | bool b => cases b <;> decide
  | num n =>
    have h : encInt n ≠ [] := by
      cases n with
      | ofNat k => exact encNat_ne_nil k
      | negSucc m => exact fun hx => List.noConfusion hx
    have hl : 0 < (encInt n).length := List.length_pos.mpr h
    show jsize (.num n) ≤ (encInt n).length
    simp only [jsize]
    omega
  | str s => simp [jsize, dumps, encString]
  | arr xs =>
    cases xs with
    | nil => simp [jsize, lsize, dumps]
    | cons v tl =>
      have h1 := jsize_le_length v
      have h2 := lsize_le_length tl
      show jsize (.arr (.cons v tl)) ≤ ('[' :: (dumps v ++ dumpsItems tl ++ [']'])).length
      simp only [jsize, lsize, List.length_cons, List.length_append]
      omega
  | obj kvs =>
    cases kvs with
    | nil => simp [jsize, msize, dumps]
    | cons k v tl =>
      have h1 := jsize_le_length v
      have h2 := msize_le_length tl
      show jsize (.obj (.cons k v tl)) ≤
        ('{' :: (encString k ++ ':' :: ' ' :: dumps v ++ dumpsMembers tl ++ ['}'])).length
      simp only [jsize, msize, List.length_cons, List.length_append]
      omega

theorem lsize_le_length (xs : JsonList) : lsize xs ≤ (dumpsItems xs).length := by
  cases xs with
  | nil => simp [lsize, dumpsItems]
  | cons v tl =>
    have h1 := jsize_le_length v
    have h2 := lsize_le_length tl
    show lsize (.cons v tl) ≤ (',' :: ' ' :: (dumps v ++ dumpsItems tl)).length
    simp only [lsize, List.length_cons, List.length_append]
    omega

theorem msize_le_length (kvs : JsonObj) : msize kvs ≤ (dumpsMembers kvs).length := by
  cases kvs with
  | nil => simp [msize, dumpsMembers]
  | cons k v tl =>
    have h1 := jsize_le_length v
    have h2 := msize_le_length tl
    show msize (.cons k v tl) ≤
      (',' :: ' ' :: (encString k ++ ':' :: ' ' :: dumps v ++ dumpsMembers tl)).length
    simp only [msize, List.length_cons, List.length_append]
    omega

end

/-- `json.loads` recovers exactly the payload `json.dumps` serialized. -/
theorem loads_dumpsStr (v : Json) : loads (dumpsStr v) = .ok v := by
  have hlen := jsize_le_length v
  have h := parseVal_dumps v ((dumps v).length + 1) [] (by omega) trivial
  rw [List.append_nil] at h
  have ht : (String.mk (dumps v)).toList = dumps v := rfl
  simp only [loads, dumpsStr, ht, h]
  rfl

/-! ### C9: the proxy-data annotation round-trips -/

/-- C9: the string `make_ingress` stores under the proxy-data annotation is
`json.dumps` of the payload, and `json.loads` of that string yields the
original payload unchanged. -/
theorem proxy_data_roundtrip (name routespec target : String) (data : Json)
    (e : V1Endpoints) (s : V1Service) (i : V1beta1Ingress)
    (h : make_ingress name routespec target data = .ok (e, s, i)) :
    (e.metadata.bind fun m => m.annotations.bind
      (List.lookup "hub.jupyter.org/proxy-data")) = some (dumpsStr data) ∧
    loads (dumpsStr data) = .ok data := by
  refine ⟨?_, loads_dumpsStr data⟩
  simp only [make_ingress, bind, Except.bind] at h
  cases hr : parseRoutespec routespec with
  | error m => rw [hr] at h; exact absurd h (by simp)
  | ok hp =>
    rw [hr] at h
    cases hu : urlparseHostPort target with
    | error m => rw [hu] at h; exact absurd h (by simp)
    | ok ipport =>
      rw [hu] at h
      simp only [pure, Except.pure, Except.ok.injEq, Prod.mk.injEq] at h
      obtain ⟨he, -, -⟩ := h
      subst he
      rfl

/-- C9 witness: the round trip evaluated on a nested concrete payload with
escapes, negative numbers and an astral-plane character. -/
theorem proxy_data_roundtrip_witness :
    ∃ e s i, make_ingress "svc" "/user/a" "http://10.0.0.5:8000"
        (Json.obj (JsonObj.cons "nums".toList
          (Json.arr (JsonList.cons (Json.num 1) (JsonList.cons (Json.num (-20))
            (JsonList.cons (Json.bool true) (JsonList.cons Json.null JsonList.nil)))))
          (JsonObj.cons "text".toList
            (Json.str ("x\"y\né".toList ++ [Char.ofNat 0x10600])) JsonObj.nil))) =
        .ok (e, s, i) ∧
      ((e.metadata.bind fun m => m.annotations.bind
        (List.lookup "hub.jupyter.org/proxy-data")) =
          some (dumpsStr (Json.obj (JsonObj.cons "nums".toList
            (Json.arr (JsonList.cons (Json.num 1) (JsonList.cons (Json.num (-20))
              (JsonList.cons (Json.bool true) (JsonList.cons Json.null JsonList.nil)))))
            (JsonObj.cons "text".toList
              (Json.str ("x\"y\né".toList ++ [Char.ofNat 0x10600])) JsonObj.nil)))) ∧
       loads (dumpsStr (Json.obj (JsonObj.cons "nums".toList
          (Json.arr (JsonList.cons (Json.num 1) (JsonList.cons (Json.num (-20))
            (JsonList.cons (Json.bool true) (JsonList.cons Json.null JsonList.nil)))))
          (JsonObj.cons "text".toList
            (Json.str ("x\"y\né".toList ++ [Char.ofNat 0x10600])) JsonObj.nil)))) =
        .ok (Json.obj (JsonObj.cons "nums".toList
          (Json.arr (JsonList.cons (Json.num 1) (JsonList.cons (Json.num (-20))
            (JsonList.cons (Json.bool true) (JsonList.cons Json.null JsonList.nil)))))
          (JsonObj.cons "text".toList
            (Json.str ("x\"y\né".toList ++ [Char.ofNat 0x10600])) JsonObj.nil)))) := by
  refine ⟨_, _, _, rfl, ?_⟩
  exact proxy_data_roundtrip "svc" "/user/a" "http://10.0.0.5:8000" _ _ _ _ rfl

end Kubespawner
